import Mathlib

/-!
Verification of `attrs_useful.py`: bulk attribute helpers `getattrs`,
`_setattrs_common`, `setattrs`, `pushattrs`, `popattrs`, `delattrs`.

Model: a Python object's attribute namespace (its `__dict__`) and a Python
`dict` are both embedded as ordered association lists `List (String × V)`
with Python dict semantics: updating an existing key rewrites its value in
place (keeping its position), a fresh key is appended at the end, and
lookup returns the first (unique) occurrence. The builtins `getattr`,
`setattr`, `delattr` become `dictGet`, `dictInsert`, `dictDel` on that
namespace; `getattr`/`delattr` on an absent name raise `AttributeError`
(here: `Option` with `none`).

Exceptions are explicit: `PyErr.typeError` is Python's `TypeError` (the
spec's `InvalidArgument`), `PyErr.attributeError` is `AttributeError` (the
spec's `AttributeNotFound`). Because a raised exception leaves mutations of
earlier loop iterations applied, the stateful operations return the final
state of the mutated data together with `Option PyErr`: `none` means the
call returned normally, `some e` means it raised `e` with the object left
in the returned state (in which case Python delivers no return value to
the caller).
-/

namespace AttrsUseful

/-- Python exceptions raised by the module: `TypeError` (argument-form
violations, the spec's `InvalidArgument`) and `AttributeError` (absent
attribute, the spec's `AttributeNotFound`). -/
inductive PyErr where
  | typeError (msg : String)
  | attributeError (name : String)
deriving DecidableEq, Repr

/-- An attribute namespace / Python dict: ordered (key, value) pairs, keys
unique, in insertion order. -/
abbrev Dict (V : Type) : Type := List (String × V)

/-- An object is its mutable attribute namespace. -/
abbrev AttrObj (V : Type) : Type := List (String × V)

/-- Lookup by key, first match: models `getattr(obj, k)` and `d[k]`;
`none` models the `AttributeError` / `KeyError` of an absent key. -/
def dictGet {V : Type} : Dict V → String → Option V
  | [], _ => none
  | (k2, v) :: rest, k => if k2 = k then some v else dictGet rest k

/-- Write by key: models `setattr(obj, k, v)` and `d[k] = v`. An existing
key is updated in place; a new key is appended (Python dict order). -/
def dictInsert {V : Type} : Dict V → String → V → Dict V
  | [], k, v => [(k, v)]
  | (k2, v2) :: rest, k, v =>
      if k2 = k then (k, v) :: rest else (k2, v2) :: dictInsert rest k v

/-- Delete by key: models `delattr(obj, k)`; `none` models the
`AttributeError` raised when the key is absent. -/
def dictDel {V : Type} : Dict V → String → Option (Dict V)
  | [], _ => none
  | (k2, v2) :: rest, k =>
      if k2 = k then some rest else (dictDel rest k).map (fun d => (k2, v2) :: d)

/-- `getattrs` loop: `for attr in attrnames: result[attr] = getattr(obj, attr)`.
The first absent name raises `AttributeError` and no result is returned. -/
def getattrsLoop {V : Type} (obj : AttrObj V) (result : Dict V) :
    List String → Except PyErr (Dict V)
  | [] => Except.ok result
  | attr :: rest =>
      match dictGet obj attr with
      | none => Except.error (PyErr.attributeError attr)
      | some v => getattrsLoop obj (dictInsert result attr v) rest

/-- `getattrs(obj, attrnames)`: returns a dictionary of the current values
of the specified attributes of the specified object. -/
def getattrs {V : Type} (obj : AttrObj V) (attrnames : List String) :
    Except PyErr (Dict V) :=
  getattrsLoop obj [] attrnames

/-- A positional argument passed to `setattrs`/`pushattrs`: a list or tuple
of (key, value) pairs, a dict (its items in insertion order, keys unique),
or a value of any other (disallowed) type. -/
inductive PosArg (V : Type) where
  | pairs (items : List (String × V))
  | dict (items : Dict V)
  | other
deriving DecidableEq, Repr

/-- The items a `for key in attrset: ... attrset[key]` loop sees on a dict:
each key paired with its looked-up value. On a genuine Python dict the keys
are distinct so the lookup finds `kv.2` and the `getD` default is never
used; it only totalizes the function. -/
def dictItems {V : Type} (d : Dict V) : Dict V :=
  d.map (fun kv => (kv.1, (dictGet d kv.1).getD kv.2))

def bothFormsMsg : String :=
  "specify attrs via either sequence/dict or keyword args, not both"

def onePosArgMsg : String :=
  "only one additional non-keyword arg allowed"

def badArgTypeMsg : String :=
  "type of arg must be list, tuple or dict"

/-- The write loops of `_setattrs_common`: apply `setf` to each (key, value)
entry in order; a raised exception stops the loop, leaving the state as it
was before the failing entry (both concrete setters mutate nothing on the
entry where they raise). -/
def foldSet {V St : Type} (setf : St → String → V → Except PyErr St) :
    St → List (String × V) → St × Option PyErr
  | st, [] => (st, none)
  | st, (k, v) :: rest =>
      match setf st k v with
      | Except.error e => (st, some e)
      | Except.ok st2 => foldSet setf st2 rest

/-- `_setattrs_common(obj, setattr, args, kwargs)`: the argument-form
dispatch shared by `setattrs` and `pushattrs`. `st` is the mutable state
threaded through the caller-supplied setter (`obj` for `setattrs`,
`(obj, prevattrs)` for `pushattrs`). Raises `TypeError` when the presence
of positional args coincides with the presence of keyword args (both given,
or neither), when more than one positional arg is given, or when the single
positional arg is not a list, tuple or dict. -/
def setattrsCommon {V St : Type} (setf : St → String → V → Except PyErr St)
    (st : St) (args : List (PosArg V)) (kwargs : List (String × V)) :
    St × Option PyErr :=
  if (args.length != 0) == (kwargs.length != 0) then
    (st, some (PyErr.typeError bothFormsMsg))
  else if args.length != 0 then
    if args.length != 1 then
      (st, some (PyErr.typeError onePosArgMsg))
    else
      match args with
      | [PosArg.pairs l] => foldSet setf st l
      | [PosArg.dict d] => foldSet setf st (dictItems d)
      | _ => (st, some (PyErr.typeError badArgTypeMsg))
  else
    foldSet setf st kwargs

/-- The builtin `setattr` passed by `setattrs` to `_setattrs_common`: writes
the slot, never raises. -/
def builtinSetattr {V : Type} (obj : AttrObj V) (key : String) (val : V) :
    Except PyErr (AttrObj V) :=
  Except.ok (dictInsert obj key val)

/-- `setattrs(obj, *args, **kwargs)`: bulk setting of attributes. -/
def setattrs {V : Type} (obj : AttrObj V) (args : List (PosArg V))
    (kwargs : List (String × V)) : AttrObj V × Option PyErr :=
  setattrsCommon builtinSetattr obj args kwargs

/-- The local `pushattr(obj, key, val)` of `pushattrs`: records the current
value in `prevattrs` then writes the new one. `getattr` runs first, so on
an absent key it raises `AttributeError` before either mutation. The state
is the pair (object namespace, `prevattrs`). -/
def pushattr {V : Type} (st : AttrObj V × Dict V) (key : String) (val : V) :
    Except PyErr (AttrObj V × Dict V) :=
  match dictGet st.1 key with
  | none => Except.error (PyErr.attributeError key)
  | some prev => Except.ok (dictInsert st.1 key val, dictInsert st.2 key prev)

/-- `pushattrs(obj, *args, **kwargs)`: like `setattrs` but also builds
`prevattrs`, the dict of previous values, returned on normal completion. -/
def pushattrs {V : Type} (obj : AttrObj V) (args : List (PosArg V))
    (kwargs : List (String × V)) : (AttrObj V × Dict V) × Option PyErr :=
  setattrsCommon pushattr (obj, []) args kwargs

/-- `popattrs = setattrs`: alternative name for symmetry with `pushattrs`. -/
def popattrs {V : Type} (obj : AttrObj V) (args : List (PosArg V))
    (kwargs : List (String × V)) : AttrObj V × Option PyErr :=
  setattrs obj args kwargs

/-- `delattrs(obj, attrnames, ignore_error)`: deletes each named attribute
in order. A missing attribute raises `AttributeError`, stopping the loop
with earlier deletions applied, unless `ignore_error` is true, in which
case the failure is swallowed and the loop continues. -/
def delattrs {V : Type} : AttrObj V → List String → Bool → AttrObj V × Option PyErr
  | obj, [], _ => (obj, none)
  | obj, attr :: rest, ignore_error =>
      match dictDel obj attr with
      | some obj2 => delattrs obj2 rest ignore_error
      | none =>
          if ignore_error then delattrs obj rest ignore_error
          else (obj, some (PyErr.attributeError attr))

/-! ### Helper lemmas about the namespace primitives -/

theorem dictGet_insert_self {V : Type} (d : Dict V) (k : String) (v : V) :
    dictGet (dictInsert d k v) k = some v := by
  induction d with
  | nil => simp [dictInsert, dictGet]
  | cons hd tl ih =>
      obtain ⟨k2, v2⟩ := hd
      by_cases h : k2 = k
      · simp [dictInsert, h, dictGet]
      · simp [dictInsert, h, dictGet, ih]

theorem dictGet_insert_ne {V : Type} (d : Dict V) (k n : String) (v : V)
    (h : n ≠ k) : dictGet (dictInsert d k v) n = dictGet d n := by
  have hk : ¬k = n := fun hc => h hc.symm
  induction d with
  | nil => simp [dictInsert, dictGet, hk]
  | cons hd tl ih =>
      obtain ⟨k2, v2⟩ := hd
      by_cases h2 : k2 = k
      · subst h2
        simp [dictInsert, dictGet, hk]
      · simp [dictInsert, dictGet, h2, ih]

theorem dictGet_of_mem {V : Type} (d : Dict V) (h : (d.map Prod.fst).Nodup) :
    ∀ kv ∈ d, dictGet d kv.1 = some kv.2 := by
  induction d with
  | nil => simp
  | cons hd tl ih =>
      obtain ⟨k, v⟩ := hd
      simp only [List.map_cons, List.nodup_cons] at h
      intro kv hkv
      rcases List.mem_cons.mp hkv with rfl | hkv2
      · simp [dictGet]
      · have hne : k ≠ kv.1 := by
          intro hEq
          exact h.1 (by rw [hEq]; exact List.mem_map_of_mem Prod.fst hkv2)
        simp [dictGet, hne, ih h.2 kv hkv2]

theorem dictItems_eq_self {V : Type} (d : Dict V)
    (h : (d.map Prod.fst).Nodup) : dictItems d = d := by
  unfold dictItems
  have hmap : d.map (fun kv => (kv.1, (dictGet d kv.1).getD kv.2)) = d.map id := by
    apply List.map_congr_left
    intro kv hkv
    rw [dictGet_of_mem d h kv hkv]
    rfl
  simpa using hmap

theorem dictDel_eq_none {V : Type} (d : Dict V) (k : String)
    (h : dictGet d k = none) : dictDel d k = none := by
  induction d with
  | nil => rfl
  | cons hd tl ih =>
      obtain ⟨k2, v2⟩ := hd
      by_cases h2 : k2 = k
      · simp [dictGet, h2] at h
      · simp only [dictGet, h2, if_false] at h
        simp [dictDel, h2, ih h]

/-! ### Helper lemmas about the write loop -/

theorem foldSet_append_ok {V St : Type}
    (setf : St → String → V → Except PyErr St) :
    ∀ (l1 : List (String × V)) (st st1 : St) (l2 : List (String × V)),
      foldSet setf st l1 = (st1, none) →
      foldSet setf st (l1 ++ l2) = foldSet setf st1 l2 := by
  intro l1
  induction l1 with
  | nil =>
      intro st st1 l2 h
      simp only [foldSet, Prod.mk.injEq] at h
      rw [List.nil_append, h.1]
  | cons hd tl ih =>
      intro st st1 l2 h
      obtain ⟨k, v⟩ := hd
      cases hs : setf st k v with
      | error e => simp [foldSet, hs] at h
      | ok st2 =>
          simp only [foldSet, hs] at h
          simp only [List.cons_append, foldSet, hs]
          exact ih st2 st1 l2 h

theorem foldSet_no_typeError {V St : Type}
    (setf : St → String → V → Except PyErr St)
    (hsetf : ∀ st k v m, setf st k v ≠ Except.error (PyErr.typeError m)) :
    ∀ (l : List (String × V)) (st : St) (m : String),
      (foldSet setf st l).2 ≠ some (PyErr.typeError m) := by
  intro l
  induction l with
  | nil => intro st m hc; simp [foldSet] at hc
  | cons hd tl ih =>
      intro st m hc
      obtain ⟨k, v⟩ := hd
      cases hs : setf st k v with
      | error e =>
          simp [foldSet, hs] at hc
          exact hsetf st k v m (hc ▸ hs)
      | ok st2 =>
          simp only [foldSet, hs] at hc
          exact ih st2 m hc

theorem builtinSetattr_no_typeError {V : Type} :
    ∀ (obj : AttrObj V) (k : String) (v : V) (m : String),
      builtinSetattr obj k v ≠ Except.error (PyErr.typeError m) := by
  intro obj k v m h
  simp [builtinSetattr] at h

theorem pushattr_no_typeError {V : Type} :
    ∀ (st : AttrObj V × Dict V) (k : String) (v : V) (m : String),
      pushattr st k v ≠ Except.error (PyErr.typeError m) := by
  intro st k v m h
  cases hg : dictGet st.1 k with
  | none => simp [pushattr, hg] at h
  | some prev => simp [pushattr, hg] at h

/-- The `setattrs` write loop, on entries with pairwise distinct names:
never raises, writes each entry, and leaves every other slot alone. -/
theorem foldSet_setattr_spec {V : Type} (l : List (String × V)) :
    ∀ obj : AttrObj V, (l.map Prod.fst).Nodup →
      (foldSet builtinSetattr obj l).2 = none ∧
      (∀ kv ∈ l, dictGet (foldSet builtinSetattr obj l).1 kv.1 = some kv.2) ∧
      (∀ n, n ∉ l.map Prod.fst →
        dictGet (foldSet builtinSetattr obj l).1 n = dictGet obj n) := by
  induction l with
  | nil => exact fun obj _ => ⟨rfl, by simp, fun n _ => rfl⟩
  | cons hd tl ih =>
      intro obj h
      obtain ⟨k, v⟩ := hd
      simp only [List.map_cons, List.nodup_cons] at h
      obtain ⟨hk, htl⟩ := h
      obtain ⟨ih1, ih2, ih3⟩ := ih (dictInsert obj k v) htl
      have step : foldSet builtinSetattr obj ((k, v) :: tl) =
          foldSet builtinSetattr (dictInsert obj k v) tl := rfl
      rw [step]
      refine ⟨ih1, ?_, ?_⟩
      · intro kv hkv
        rcases List.mem_cons.mp hkv with rfl | hkv2
        · simpa using (ih3 k hk).trans (dictGet_insert_self obj k v)
        · exact ih2 kv hkv2
      · intro n hn
        simp only [List.map_cons, List.mem_cons, not_or] at hn
        rw [ih3 n hn.2]
        exact dictGet_insert_ne obj k n v hn.1

/-! ### Helper lemmas about the read loop -/

theorem getattrsLoop_spec {V : Type} :
    ∀ (names : List String) (obj : AttrObj V) (acc : Dict V),
      (∀ n ∈ names, (dictGet obj n).isSome) →
      ∃ res, getattrsLoop obj acc names = Except.ok res ∧
        (∀ n ∈ names, dictGet res n = dictGet obj n) ∧
        (∀ n, n ∉ names → dictGet res n = dictGet acc n) := by
  intro names
  induction names with
  | nil => exact fun obj acc _ => ⟨acc, rfl, by simp, fun n _ => rfl⟩
  | cons a rest ih =>
      intro obj acc h
      have ha : (dictGet obj a).isSome := h a (List.mem_cons_self a rest)
      obtain ⟨v, hv⟩ := Option.isSome_iff_exists.mp ha
      obtain ⟨res, hres, h2, h3⟩ := ih obj (dictInsert acc a v)
        (fun n hn => h n (List.mem_cons_of_mem a hn))
      refine ⟨res, by simp [getattrsLoop, hv, hres], ?_, ?_⟩
      · intro n hn
        rcases List.mem_cons.mp hn with rfl | hn2
        · by_cases hmem : n ∈ rest
          · exact h2 n hmem
          · rw [h3 n hmem, dictGet_insert_self, hv]
        · exact h2 n hn2
      · intro n hn
        have hna : n ≠ a := fun he => hn (he ▸ List.mem_cons_self a rest)
        have hnr : n ∉ rest := fun hr => hn (List.mem_cons_of_mem a hr)
        rw [h3 n hnr, dictGet_insert_ne acc a n v hna]

theorem getattrsLoop_missing {V : Type} :
    ∀ (names : List String) (obj : AttrObj V) (acc : Dict V),
      (∃ n ∈ names, dictGet obj n = none) →
      ∃ m, getattrsLoop obj acc names = Except.error (PyErr.attributeError m) ∧
        m ∈ names ∧ dictGet obj m = none := by
  intro names
  induction names with
  | nil => rintro obj acc ⟨n, hn, _⟩; exact absurd hn (List.not_mem_nil n)
  | cons a rest ih =>
      rintro obj acc ⟨n, hn, hnone⟩
      cases ha : dictGet obj a with
      | none =>
          exact ⟨a, by simp [getattrsLoop, ha], List.mem_cons_self a rest, ha⟩
      | some v =>
          have hnr : n ∈ rest := by
            rcases List.mem_cons.mp hn with rfl | h2
            · rw [ha] at hnone; cases hnone
            · exact h2
          obtain ⟨m, h1, h2, h3⟩ := ih obj (dictInsert acc a v) ⟨n, hnr, hnone⟩
          exact ⟨m, by simp [getattrsLoop, ha, h1], List.mem_cons_of_mem a h2, h3⟩

/-! ### Claim theorems -/

/-- Claim C1: for every object and attribute set with no duplicate names,
after a successful `setattrs` every attribute named in the set holds
exactly the supplied value and every attribute not named in it is
unchanged — for the pair-sequence form, the dict form (which produces the
same result), and the keyword form (when nonempty, as required by the
argument-form check). -/
theorem setattrs_frame {V : Type} (obj : AttrObj V) (l : List (String × V))
    (h : (l.map Prod.fst).Nodup) :
    (setattrs obj [PosArg.pairs l] []).2 = none ∧
    (∀ kv ∈ l, dictGet (setattrs obj [PosArg.pairs l] []).1 kv.1 = some kv.2) ∧
    (∀ n, n ∉ l.map Prod.fst →
      dictGet (setattrs obj [PosArg.pairs l] []).1 n = dictGet obj n) ∧
    setattrs obj [PosArg.dict l] [] = setattrs obj [PosArg.pairs l] [] ∧
    (l ≠ [] → setattrs obj [] l = setattrs obj [PosArg.pairs l] []) := by
  obtain ⟨h1, h2, h3⟩ := foldSet_setattr_spec l obj h
  refine ⟨h1, h2, h3, ?_, ?_⟩
  · show foldSet builtinSetattr obj (dictItems l) = foldSet builtinSetattr obj l
    rw [dictItems_eq_self l h]
  · intro hne
    rcases l with _ | ⟨kv, rest⟩
    · exact absurd rfl hne
    · rfl

/-- Witness for C1 at a concrete input: the names are distinct, and the
slot `b`, not named in the written set, is unchanged. -/
theorem setattrs_frame_witness :
    (([("a", 5), ("c", 7)] : List (String × Nat)).map Prod.fst).Nodup ∧
    dictGet (setattrs ([("a", 1), ("b", 2)] : AttrObj Nat)
        [PosArg.pairs [("a", 5), ("c", 7)]] []).1 "b" =
      dictGet [("a", 1), ("b", 2)] "b" :=
  ⟨by decide,
   (setattrs_frame [("a", 1), ("b", 2)] [("a", 5), ("c", 7)]
     (by decide)).2.2.1 "b" (by decide)⟩

/-- Claim C5: passing the same attribute set to `setattrs` as a dict or as
an ordered sequence of (name, value) pairs produces identical results. -/
theorem setattrs_dict_pairs_equiv {V : Type} (obj : AttrObj V)
    (l : List (String × V)) (h : (l.map Prod.fst).Nodup) :
    setattrs obj [PosArg.dict l] [] = setattrs obj [PosArg.pairs l] [] := by
  show foldSet builtinSetattr obj (dictItems l) = foldSet builtinSetattr obj l
  rw [dictItems_eq_self l h]

/-- Witness for C5 at the spec's own example `{"a": 1, "b": 2}`. -/
theorem setattrs_dict_pairs_equiv_witness :
    (([("a", 1), ("b", 2)] : List (String × Nat)).map Prod.fst).Nodup ∧
    setattrs ([("a", 0), ("b", 0)] : AttrObj Nat)
        [PosArg.dict [("a", 1), ("b", 2)]] [] =
      setattrs [("a", 0), ("b", 0)] [PosArg.pairs [("a", 1), ("b", 2)]] [] :=
  ⟨by decide,
   setattrs_dict_pairs_equiv [("a", 0), ("b", 0)] [("a", 1), ("b", 2)] (by decide)⟩

/-- Claim C6: for an object and a list of names all present on it,
`getattrs` returns a mapping taking each requested name to the current
value of that attribute on the object. -/
theorem getattrs_reads_current {V : Type} (obj : AttrObj V)
    (names : List String) (h : ∀ n ∈ names, (dictGet obj n).isSome) :
    ∃ res, getattrs obj names = Except.ok res ∧
      ∀ n ∈ names, dictGet res n = dictGet obj n := by
  obtain ⟨res, h1, h2, _⟩ := getattrsLoop_spec names obj [] h
  exact ⟨res, h1, h2⟩

/-- Witness for C6: the spec's particular case `bulk_read(O, [N])[N] = O.N`
at a concrete input. -/
theorem getattrs_reads_current_witness :
    (∀ n ∈ ["b"], (dictGet ([("a", 1), ("b", 2)] : AttrObj Nat) n).isSome) ∧
    ∃ res, getattrs ([("a", 1), ("b", 2)] : AttrObj Nat) ["b"] = Except.ok res ∧
      ∀ n ∈ ["b"], dictGet res n = dictGet [("a", 1), ("b", 2)] n :=
  ⟨by decide, getattrs_reads_current [("a", 1), ("b", 2)] ["b"] (by decide)⟩

/-- Claim C7: for a name list containing at least one name absent on the
object, `getattrs` fails with `AttributeError` (the host's lookup failure
for an absent requested name) and returns no result mapping. -/
theorem getattrs_missing_raises {V : Type} (obj : AttrObj V)
    (names : List String) (h : ∃ n ∈ names, dictGet obj n = none) :
    ∃ m, getattrs obj names = Except.error (PyErr.attributeError m) ∧
      m ∈ names ∧ dictGet obj m = none :=
  getattrsLoop_missing names obj [] h

/-- Witness for C7 at a concrete input with an absent name. -/
theorem getattrs_missing_raises_witness :
    (∃ n ∈ ["a", "m"], dictGet ([("a", 1)] : AttrObj Nat) n = none) ∧
    ∃ m, getattrs ([("a", 1)] : AttrObj Nat) ["a", "m"] =
        Except.error (PyErr.attributeError m) ∧
      m ∈ ["a", "m"] ∧ dictGet ([("a", 1)] : AttrObj Nat) m = none :=
  ⟨by decide, getattrs_missing_raises [("a", 1)] ["a", "m"] (by decide)⟩

/-- Reduction of a single-entry dict write: used for the round-trip claim. -/
theorem setattrs_dict_single {V : Type} (obj : AttrObj V) (x : String) (v : V) :
    setattrs obj [PosArg.dict [(x, v)]] [] = (dictInsert obj x v, none) := by
  show foldSet builtinSetattr obj (dictItems [(x, v)]) = _
  simp [dictItems, dictGet, foldSet, builtinSetattr]

/-- Claim C2: when attribute `x` currently holds `old`, `pushattrs` of
`{x: new}` returns the snapshot `{x: old}` and leaves `x` equal to `new`;
feeding the snapshot back into `setattrs` restores `x` to `old`. -/
theorem pushattrs_roundtrip {V : Type} (obj : AttrObj V) (x : String)
    (old new : V) (h : dictGet obj x = some old) :
    pushattrs obj [PosArg.dict [(x, new)]] [] =
      ((dictInsert obj x new, [(x, old)]), none) ∧
    dictGet (dictInsert obj x new) x = some new ∧
    dictGet (setattrs (dictInsert obj x new) [PosArg.dict [(x, old)]] []).1 x =
      some old := by
  refine ⟨?_, dictGet_insert_self obj x new, ?_⟩
  · show foldSet pushattr (obj, []) (dictItems [(x, new)]) = _
    simp [dictItems, dictGet, foldSet, pushattr, h, dictInsert]
  · rw [setattrs_dict_single]
    exact dictGet_insert_self (dictInsert obj x new) x old

/-- Witness for C2 at a concrete input. -/
theorem pushattrs_roundtrip_witness :
    dictGet ([("x", 1), ("y", 2)] : AttrObj Nat) "x" = some 1 ∧
    pushattrs ([("x", 1), ("y", 2)] : AttrObj Nat) [PosArg.dict [("x", 9)]] [] =
      ((dictInsert [("x", 1), ("y", 2)] "x" 9, [("x", 1)]), none) :=
  ⟨by decide, (pushattrs_roundtrip [("x", 1), ("y", 2)] "x" 1 9 (by decide)).1⟩

/-- Counterexample to C3 as stated: the call with no positional attribute
set and no keyword attributes raises `TypeError` (the spec's
`InvalidArgument`) even though none of the three listed argument-form
violations holds (both forms given; more than one positional; single
positional of disallowed type). -/
theorem setattrs_typeError_exactly_cex :
    (∃ m, (setattrs ([("a", 1)] : AttrObj Nat) [] []).2 =
      some (PyErr.typeError m)) ∧
    ¬(([] : List (PosArg Nat)) ≠ [] ∧ ([] : List (String × Nat)) ≠ []) ∧
    ¬(1 < ([] : List (PosArg Nat)).length) ∧
    ([] : List (PosArg Nat)) ≠ [PosArg.other] :=
  ⟨⟨bothFormsMsg, rfl⟩, by simp, by simp, by simp⟩

/-- The argument-form dispatch raises `TypeError` exactly when both forms
are supplied, more than one positional argument is supplied, the single
positional argument is of disallowed type, or neither form is supplied —
for any setter that itself never raises `TypeError`. -/
theorem setattrsCommon_typeError_iff {V St : Type}
    (setf : St → String → V → Except PyErr St)
    (hsetf : ∀ st k v m, setf st k v ≠ Except.error (PyErr.typeError m))
    (st : St) (args : List (PosArg V)) (kwargs : List (String × V)) :
    (∃ m, (setattrsCommon setf st args kwargs).2 = some (PyErr.typeError m)) ↔
      ((args ≠ [] ∧ kwargs ≠ []) ∨ 1 < args.length ∨ args = [PosArg.other] ∨
        (args = [] ∧ kwargs = [])) := by
  rcases args with _ | ⟨a, _ | ⟨b, rest⟩⟩
  · rcases kwargs with _ | ⟨kw, kws⟩
    · exact ⟨fun _ => Or.inr (Or.inr (Or.inr ⟨rfl, rfl⟩)),
        fun _ => ⟨bothFormsMsg, rfl⟩⟩
    · constructor
      · rintro ⟨m, hm⟩
        exact absurd hm (foldSet_no_typeError setf hsetf (kw :: kws) st m)
      · rintro (⟨h1, _⟩ | h2 | h3 | ⟨_, h4⟩)
        · exact absurd rfl h1
        · simp at h2
        · simp at h3
        · simp at h4
  · rcases kwargs with _ | ⟨kw, kws⟩
    · rcases a with l | d | _
      · constructor
        · rintro ⟨m, hm⟩
          exact absurd hm (foldSet_no_typeError setf hsetf l st m)
        · rintro (⟨_, h1⟩ | h2 | h3 | ⟨h4, _⟩)
          · exact absurd rfl h1
          · simp at h2
          · simp at h3
          · simp at h4
      · constructor
        · rintro ⟨m, hm⟩
          exact absurd hm (foldSet_no_typeError setf hsetf (dictItems d) st m)
        · rintro (⟨_, h1⟩ | h2 | h3 | ⟨h4, _⟩)
          · exact absurd rfl h1
          · simp at h2
          · simp at h3
          · simp at h4
      · exact ⟨fun _ => Or.inr (Or.inr (Or.inl rfl)),
          fun _ => ⟨badArgTypeMsg, rfl⟩⟩
    · exact ⟨fun _ => Or.inl ⟨by simp, by simp⟩, fun _ => ⟨bothFormsMsg, rfl⟩⟩
  · rcases kwargs with _ | ⟨kw, kws⟩
    · exact ⟨fun _ => Or.inr (Or.inl (by simp only [List.length_cons]; omega)),
        fun _ => ⟨onePosArgMsg, rfl⟩⟩
    · exact ⟨fun _ => Or.inl ⟨by simp, by simp⟩, fun _ => ⟨bothFormsMsg, rfl⟩⟩

/-- Claim C3 (amended): `setattrs` — and likewise `pushattrs` — raises
`TypeError` (the spec's `InvalidArgument`) exactly when both a positional
attribute set and keyword attributes are supplied, when more than one
positional argument is supplied, when the single positional argument is of
disallowed type, or when neither form is supplied at all; in every other
call it does not raise `TypeError`. -/
theorem setattrs_typeError_iff {V : Type} (obj : AttrObj V)
    (args : List (PosArg V)) (kwargs : List (String × V)) :
    ((∃ m, (setattrs obj args kwargs).2 = some (PyErr.typeError m)) ↔
      ((args ≠ [] ∧ kwargs ≠ []) ∨ 1 < args.length ∨ args = [PosArg.other] ∨
        (args = [] ∧ kwargs = []))) ∧
    ((∃ m, (pushattrs obj args kwargs).2 = some (PyErr.typeError m)) ↔
      ((args ≠ [] ∧ kwargs ≠ []) ∨ 1 < args.length ∨ args = [PosArg.other] ∨
        (args = [] ∧ kwargs = []))) :=
  ⟨setattrsCommon_typeError_iff builtinSetattr builtinSetattr_no_typeError
     obj args kwargs,
   setattrsCommon_typeError_iff pushattr pushattr_no_typeError
     (obj, []) args kwargs⟩

/-- Helper for C4: a prefix of names that deletes without failure composes
with the processing of the remaining names. -/
theorem delattrs_append_ok {V : Type} :
    ∀ (l1 : List String) (obj obj1 : AttrObj V) (l2 : List String) (ig : Bool),
      delattrs obj l1 ig = (obj1, none) →
      delattrs obj (l1 ++ l2) ig = delattrs obj1 l2 ig := by
  intro l1
  induction l1 with
  | nil =>
      intro obj obj1 l2 ig h
      simp only [delattrs, Prod.mk.injEq] at h
      rw [List.nil_append, h.1]
  | cons attr rest ih =>
      intro obj obj1 l2 ig h
      cases hd : dictDel obj attr with
      | some obj2 =>
          simp only [delattrs, hd] at h
          simp only [List.cons_append, delattrs, hd]
          exact ih obj2 obj1 l2 ig h
      | none =>
          cases ig with
          | true =>
              simp only [delattrs, hd] at h
              simp only [List.cons_append, delattrs, hd]
              exact ih obj obj1 l2 true h
          | false => simp [delattrs, hd] at h

/-- Claim C4: with `ignore_error` false, the first name absent on the
object (once the names before it have been deleted) makes `delattrs` stop
with `AttributeError` there, leaving exactly the earlier deletions applied
and the remaining names unprocessed; with `ignore_error` true the failure
for an absent name is swallowed, processing continues, and the call always
completes without raising. -/
theorem delattrs_error_behavior {V : Type} :
    (∀ (obj : AttrObj V) (names : List String),
      (delattrs obj names true).2 = none) ∧
    (∀ (obj : AttrObj V) (n : String) (rest : List String),
      dictGet obj n = none → delattrs obj (n :: rest) true = delattrs obj rest true) ∧
    (∀ (obj obj1 : AttrObj V) (l1 : List String) (n : String) (l2 : List String),
      delattrs obj l1 false = (obj1, none) → dictGet obj1 n = none →
      delattrs obj (l1 ++ n :: l2) false =
        (obj1, some (PyErr.attributeError n))) := by
  refine ⟨?_, ?_, ?_⟩
  · intro obj names
    induction names generalizing obj with
    | nil => rfl
    | cons attr rest ih =>
        cases hd : dictDel obj attr with
        | some obj2 => simp only [delattrs, hd]; exact ih obj2
        | none => simp only [delattrs, hd, if_true]; exact ih obj
  · intro obj n rest h
    simp [delattrs, dictDel_eq_none obj n h]
  · intro obj obj1 l1 n l2 h1 h2
    rw [delattrs_append_ok l1 obj obj1 (n :: l2) false h1]
    simp [delattrs, dictDel_eq_none obj1 n h2]

/-- Witness for C4: the spec's example, deleting `["a", "m", "b"]` with
suppression off removes `a`, raises on the missing `m`, and leaves `b`
undeleted. -/
theorem delattrs_error_behavior_witness :
    delattrs ([("a", 1), ("b", 2)] : AttrObj Nat) (["a"] ++ "m" :: ["b"]) false =
      ([("b", 2)], some (PyErr.attributeError "m")) :=
  delattrs_error_behavior.2.2 [("a", 1), ("b", 2)] [("b", 2)] ["a"] "m" ["b"]
    (by decide) (by decide)

/-- Claim C8: `_setattrs_common` applies the resolved entries one at a
time in iteration order with no atomicity: when an earlier prefix of
entries has been written successfully and the setter fails on the next
entry, the call stops with that error and the state keeps exactly the
earlier writes (for any setter, covering both `setattrs` and
`pushattrs`). -/
theorem setattrsCommon_no_atomicity {V St : Type}
    (setf : St → String → V → Except PyErr St) (st st1 : St)
    (l1 : List (String × V)) (k : String) (v : V) (l2 : List (String × V))
    (e : PyErr) (h1 : foldSet setf st l1 = (st1, none))
    (h2 : setf st1 k v = Except.error e) :
    setattrsCommon setf st [PosArg.pairs (l1 ++ (k, v) :: l2)] [] =
      (st1, some e) := by
  show foldSet setf st (l1 ++ (k, v) :: l2) = (st1, some e)
  rw [foldSet_append_ok setf l1 st st1 ((k, v) :: l2) h1]
  simp [foldSet, h2]

/-- Witness for C8: `pushattrs` on `[("a", 5)] ++ ("m", 6) :: [("b", 7)]`
with `m` absent — the earlier write of `a` remains applied, the error is
raised at `m`, and `b` is not processed. -/
theorem setattrsCommon_no_atomicity_witness :
    foldSet pushattr (([("a", 0)], []) : AttrObj Nat × Dict Nat) [("a", 5)] =
      (([("a", 5)], [("a", 0)]), none) ∧
    pushattr (([("a", 5)], [("a", 0)]) : AttrObj Nat × Dict Nat) "m" 6 =
      Except.error (PyErr.attributeError "m") ∧
    setattrsCommon pushattr (([("a", 0)], []) : AttrObj Nat × Dict Nat)
        [PosArg.pairs ([("a", 5)] ++ ("m", 6) :: [("b", 7)])] [] =
      ((([("a", 5)], [("a", 0)])), some (PyErr.attributeError "m")) :=
  ⟨by decide, rfl,
   setattrsCommon_no_atomicity pushattr ([("a", 0)], []) ([("a", 5)], [("a", 0)])
     [("a", 5)] "m" 6 [("b", 7)] (PyErr.attributeError "m")
     (by decide) rfl⟩

/-- Claim C9: calling `setattrs` or `pushattrs` with no attributes at all
raises the same `TypeError` as supplying both forms simultaneously, rather
than succeeding as a no-op, and the object is left unchanged. -/
theorem setattrs_empty_call {V : Type} (obj : AttrObj V) :
    setattrs obj [] [] = (obj, some (PyErr.typeError bothFormsMsg)) ∧
    pushattrs obj [] [] = ((obj, []), some (PyErr.typeError bothFormsMsg)) ∧
    (∀ (args : List (PosArg V)) (kwargs : List (String × V)),
      args ≠ [] → kwargs ≠ [] →
      (setattrs obj args kwargs).2 = some (PyErr.typeError bothFormsMsg)) := by
  refine ⟨rfl, rfl, ?_⟩
  intro args kwargs ha hk
  rcases args with _ | ⟨a, as⟩
  · exact absurd rfl ha
  rcases kwargs with _ | ⟨kw, kws⟩
  · exact absurd rfl hk
  rfl

/-- Witness for C9: a both-forms call at a concrete input yields the very
error the no-attributes call yields. -/
theorem setattrs_empty_call_witness :
    ([PosArg.other] : List (PosArg Nat)) ≠ [] ∧
    ([("b", 2)] : List (String × Nat)) ≠ [] ∧
    (setattrs ([("a", 1)] : AttrObj Nat) [PosArg.other] [("b", 2)]).2 =
      some (PyErr.typeError bothFormsMsg) :=
  ⟨by decide, by decide,
   (setattrs_empty_call [("a", 1)]).2.2 [PosArg.other] [("b", 2)]
     (by decide) (by decide)⟩

/-- Claim C10: `pushattrs` on an attribute set containing a name absent on
the object raises `AttributeError` when it reaches that entry, before
writing it: entries processed earlier remain written and their previous
values are in the snapshot, but the raised error means no snapshot is
returned to the caller. -/
theorem pushattrs_partial {V : Type} (obj : AttrObj V)
    (l1 : List (String × V)) (n : String) (v : V) (l2 : List (String × V))
    (obj1 : AttrObj V) (snap1 : Dict V)
    (h1 : foldSet pushattr (obj, ([] : Dict V)) l1 = ((obj1, snap1), none))
    (h2 : dictGet obj1 n = none) :
    pushattrs obj [PosArg.pairs (l1 ++ (n, v) :: l2)] [] =
      ((obj1, snap1), some (PyErr.attributeError n)) := by
  show setattrsCommon pushattr (obj, []) [PosArg.pairs (l1 ++ (n, v) :: l2)] [] = _
  show foldSet pushattr (obj, []) (l1 ++ (n, v) :: l2) = _
  rw [foldSet_append_ok pushattr l1 (obj, []) (obj1, snap1) ((n, v) :: l2) h1]
  simp [foldSet, pushattr, h2]

/-- Witness for C10 at a concrete input: `a` is rewritten and captured,
the absent `m` raises, `b` is not processed. -/
theorem pushattrs_partial_witness :
    foldSet pushattr (([("a", 1), ("b", 2)], []) : AttrObj Nat × Dict Nat)
        [("a", 5)] = (([("a", 5), ("b", 2)], [("a", 1)]), none) ∧
    dictGet ([("a", 5), ("b", 2)] : AttrObj Nat) "m" = none ∧
    pushattrs ([("a", 1), ("b", 2)] : AttrObj Nat)
        [PosArg.pairs ([("a", 5)] ++ ("m", 6) :: [("b", 7)])] [] =
      (([("a", 5), ("b", 2)], [("a", 1)]), some (PyErr.attributeError "m")) :=
  ⟨by decide, by decide,
   pushattrs_partial [("a", 1), ("b", 2)] [("a", 5)] "m" 6 [("b", 7)]
     [("a", 5), ("b", 2)] [("a", 1)] (by decide) (by decide)⟩

end AttrsUseful
